import Mathlib

/-!
Shallow embedding of the mumax3 GUI command-injection bridge
(`engine/gui.go`) and of the `httpfs` client, together with theorems
checking the specification of the bridge against this embedding.

Conventions used throughout:
* wall-clock instants (`time.Time`) are modelled as naturals;
* Go strings are Lean `String`s; `fmt.Sprint` of a non-negative integer
  is modelled by the decimal rendering `natToDec` below;
* stateful Go code becomes explicit state passing; observable side
  effects (log lines, injected commands) are returned as data.
-/

/-! ### Decimal rendering

Models the decimal form produced by Go's `fmt.Sprint` on a non-negative
integer. Defined from scratch so that injectivity is provable. -/

/-- Little-endian decimal digits of a natural number. -/
def decDigitsLE (n : Nat) : List Nat :=
  if h : n < 10 then [n] else n % 10 :: decDigitsLE (n / 10)
termination_by n
decreasing_by
  exact Nat.div_lt_self (Nat.pos_of_ne_zero (by omega)) (by norm_num)

/-- Value of a little-endian digit list. -/
def ofDigitsLE : List Nat → Nat
  | [] => 0
  | d :: ds => d + 10 * ofDigitsLE ds

/-- ASCII character of a decimal digit. -/
def digitChar (d : Nat) : Char := Char.ofNat (48 + d)

/-- Character list of the decimal rendering (most significant digit first). -/
def natToDecChars (n : Nat) : List Char := ((decDigitsLE n).map digitChar).reverse

/-- Decimal rendering of a natural number, as produced by Go's `fmt.Sprint`
on a non-negative integer value. -/
def natToDec (n : Nat) : String := ⟨natToDecChars n⟩

/-! ### Case-insensitive string order

Models the ordering used by the engine's case-insensitive sort of
quantity names (compare `strings.ToLower` images). -/

/-- Case-insensitive comparison of strings, as used for quantity names. -/
def caseLe (a b : String) : Prop := a.toLower ≤ b.toLower

instance : DecidableRel caseLe :=
  fun a b => inferInstanceAs (Decidable (a.toLower ≤ b.toLower))

instance : IsTotal String caseLe := ⟨fun a b => le_total a.toLower b.toLower⟩

instance : IsTrans String caseLe := ⟨fun _ _ _ h1 h2 => le_trans h1 h2⟩

namespace engine

/-! ### GUI state (`engine/gui.go`)

The `guistate` record carries the fields of the Go `guistate` struct that
the bridge manipulates, plus the observable server-side key→value store
of the embedded `gui.Page` (written by `GUI.Set`, read by
`GUI.StringValue`). The Go map `Quants` is carried as its key list. -/

structure guistate where
  busy : Bool
  cliDisabled : Bool
  eventCacheBreaker : Nat
  values : List (String × String)
  quants : List String
deriving DecidableEq

/-- Lookup of a published value; models `gui.Page` value reads. -/
def getVal : List (String × String) → String → String
  | [], _ => ""
  | (k, v) :: rest, key => if key = k then v else getVal rest key

/-- Models `GUI.StringValue(key)`. -/
def guistate.stringValue (g : guistate) (key : String) : String :=
  getVal g.values key

/-- Models `GUI.Set(key, value)` (value already rendered to a string). -/
def guistate.set (g : guistate) (key v : String) : guistate :=
  { g with values := (key, v) :: g.values }

/-- Models the `OnAnyEvent` handler: `GUI.eventCacheBreaker++`. -/
def onAnyEvent (g : guistate) : guistate :=
  { g with eventCacheBreaker := g.eventCacheBreaker + 1 }

/-- Models `guistate.disableControls(busy)`: `g.Disable("cli", busy)`. -/
def disableControls (b : Bool) (g : guistate) : guistate :=
  { g with cliDisabled := b }

/-- Models `guistate.Busy()` (the mutex only guards the read; the value
returned is the `busy` field). -/
def guistate.Busy (g : guistate) : Bool := g.busy

/-! ### Heartbeat (`KeepAlive` / `updateKeepAlive`) -/

/-- Wall-clock instants are modelled as naturals. -/
abbrev Instant := Nat

/-- Models `updateKeepAlive()`: `keepalive = time.Now()`, where `now` is the
current clock reading and the second argument the previous stored value. -/
def updateKeepAlive (now : Instant) (_keepalive : Instant) : Instant := now

/-- Models `KeepAlive()`: returns the stored instant. -/
def KeepAlive (keepalive : Instant) : Instant := keepalive

/-- Observed `KeepAlive()` values after successive `updateKeepAlive()` calls
at the given clock readings, starting from stored value `k`. -/
def touchAll (k : Instant) : List Instant → List Instant
  | [] => []
  | t :: ts => KeepAlive (updateKeepAlive t k) :: touchAll (updateKeepAlive t k) ts

/-- Models `guistate.SetBusy(busy)`: sets the flag, updates the derived
controls projection, refreshes the heartbeat. Returns the new gui state and
the new stored heartbeat instant. -/
def SetBusy (b : Bool) (now : Instant) (g : guistate) (ka : Instant) :
    guistate × Instant :=
  let g1 := { g with busy := b }
  let g2 := disableControls b g1
  (g2, updateKeepAlive now ka)

/-! ### Snapshot / refresh (the `OnUpdate` handler) -/

/-- Solver and GPU values read inside the injected snapshot command.
Floating-point fields are carried as the strings handed to `GUI.Set`
(their `fmt.Sprintf` images); integer fields are naturals. -/
structure Sim where
  nsteps : Nat
  timeStr : String
  dtStr : String
  lasterrStr : String
  maxerrStr : String
  mindtStr : String
  maxdtStr : String
  fixdtStr : String
  memfree : Nat
deriving DecidableEq

/-- Body of the single `InjectAndWait` issued by the `OnUpdate` handler:
publishes the solver fields, the display identifier with its cache breaker,
and the free GPU memory. -/
def snapshotRun (sim : Sim) (g : guistate) : guistate :=
  let g1 := g.set "nsteps" (natToDec sim.nsteps)
  let g2 := g1.set "time" sim.timeStr
  let g3 := g2.set "dt" sim.dtStr
  let g4 := g3.set "lasterr" sim.lasterrStr
  let g5 := g4.set "maxerr" sim.maxerrStr
  let g6 := g5.set "mindt" sim.mindtStr
  let g7 := g6.set "maxdt" sim.maxdtStr
  let g8 := g7.set "fixdt" sim.fixdtStr
  let quant := g8.stringValue "renderQuant"
  let comp := g8.stringValue "renderComp"
  let cachebreaker := "?" ++ g8.stringValue "nsteps" ++ "_" ++ natToDec g8.eventCacheBreaker
  let g9 := g8.set "display" ("/render/" ++ quant ++ "/" ++ comp ++ cachebreaker)
  g9.set "memfree" (natToDec sim.memfree)

/-- Observable outcome of one `OnUpdate` invocation: the gui state, the
stored heartbeat instant, the number of `InjectAndWait` submissions issued,
and whether the busy indicator was reported (`log.Println("gui busy")`). -/
structure UpdateResult where
  gui : guistate
  keepalive : Instant
  injected : Nat
  busyLogged : Bool
deriving DecidableEq

/-- Models the `OnUpdate` handler registered in `PrepareServer`: refresh the
heartbeat, then either report busy and return, or re-enable controls and
issue exactly one `InjectAndWait` running the snapshot. (`Req(1)`/`Req(-1)`
request accounting is outside the bridge state and not modelled.) -/
def onUpdate (now : Instant) (sim : Sim) (g : guistate) (ka : Instant) :
    UpdateResult :=
  let ka1 := updateKeepAlive now ka
  if g.Busy then
    ⟨g, ka1, 0, true⟩
  else
    let g1 := disableControls false g
    ⟨snapshotRun sim g1, ka1, 1, false⟩

end engine

namespace engine

/-! ### Eval pipeline (`Eval` in `engine/gui.go`) -/

/-- Log lines issued through the logging collaborator. -/
inductive LogEntry
  | input (s : String)
  | output (s : String)
deriving DecidableEq

/-- Compiled unit returned by the script compiler collaborator
(`World.Compile`): exposes `Format()` and `Eval()`, the latter acting on
simulation state of type `σ`. -/
structure Tree (σ : Type) where
  format : String
  eval : σ → σ

/-- Observable outcome of one `Eval(code)` call: the log lines issued, the
resulting simulation state, and how many times the compiled unit was
evaluated. -/
structure EvalResult (σ : Type) where
  logs : List LogEntry
  sim : σ
  evaluated : Nat

/-- Models `Eval(code)`: compile, then on success log the formatted unit as
input and evaluate it; on failure log the original text concatenated with
the error description as output and evaluate nothing. -/
def Eval {σ : Type} (compile : String → Except String (Tree σ))
    (code : String) (sim : σ) : EvalResult σ :=
  match compile code with
  | .ok tree => ⟨[.input tree.format], tree.eval sim, 1⟩
  | .error err => ⟨[.output (code ++ "\n" ++ err)], sim, 0⟩

/-! ### Command queue (injection bridge)

The `Inject` channel, its consumer loop in the simulation thread and
`InjectAndWait` are declared outside the file under review; only their
callers appear in `engine/gui.go`. They are modelled from the spec. -/

/-- Outcome of running one command body: either it completes normally or it
faults (panics), in both cases leaving behind a simulation state. -/
inductive CmdOutcome (σ : Type) where
  | ok (s : σ)
  | panicked (msg : String) (s : σ)

/-- A command: a zero-argument, side-effecting unit of work, which may
fault. -/
abbrev Cmd (σ : Type) := σ → CmdOutcome σ

/-- Modelled from the spec: the guarded execution frame the consumer loop
wraps around every dequeued command (source of the wrapper is not under
review). A fault is converted into a logged error message instead of
propagating. -/
def runGuarded {σ : Type} (cmd : Cmd σ) (s : σ) : σ × Option String :=
  match cmd s with
  | .ok s1 => (s1, none)
  | .panicked msg s1 => (s1, some msg)

/-- Modelled from the spec: the simulation thread draining all pending
commands (consumer loop source not under review). Returns the final state,
the number of commands executed, and the fault messages logged. -/
def drain {σ : Type} : List (Cmd σ) → σ → σ × Nat × List String
  | [], s => (s, 0, [])
  | c :: cs, s =>
    let r1 := runGuarded c s
    let r2 := drain cs r1.1
    (r2.1, r2.2.1 + 1,
      match r1.2 with
      | none => r2.2.2
      | some m => m :: r2.2.2)

/-- Outcome observed by a thread calling `InjectAndWait`: the state after
the command ran, whether the waiter was released, and the fault if any. -/
structure WaitOutcome (σ : Type) where
  sim : σ
  released : Bool
  fault : Option String

/-- Modelled from the spec: `InjectAndWait` (`SubmitAndWait`) submits the
command wrapped in the guarded frame and blocks until it has run; the
waiter is then released whether or not the command faulted. -/
def SubmitAndWait {σ : Type} (cmd : Cmd σ) (s : σ) : WaitOutcome σ :=
  let r := runGuarded cmd s
  ⟨r.1, true, r.2⟩

/-- State of the fire-and-forget bridge: pending commands plus the
simulation state only the consumer may touch. -/
structure Bridge (σ : Type) where
  pending : List (Cmd σ)
  sim : σ

/-- Modelled from the spec: `Submit` (the send on the `Inject` channel,
whose declaration is not under review; the spec assumes unbounded
buffering). The command is enqueued; nothing is executed at submission
time and no result is returned to the caller. -/
def Submit {σ : Type} (cmd : Cmd σ) (b : Bridge σ) : Bridge σ :=
  { b with pending := b.pending ++ [cmd] }

/-- Models the `cli` event handler of `PrepareServer`: read the entered
text, inject a command that will `Eval` it, clear the text box. `evalCmd`
is the code-to-command constructor (`func() { Eval(cmd) }`). -/
def cliHandler {σ : Type} (evalCmd : String → Cmd σ) (g : guistate)
    (b : Bridge σ) : guistate × Bridge σ :=
  let cmd := g.stringValue "cli"
  let b1 := Submit (evalCmd cmd) b
  (g.set "cli" "", b1)

/-! ### Quantity names (`guistate.QuantNames`) -/

/-- Modelled from the spec: `sortNoCase` (the engine's case-insensitive
string sort, whose source is not under review) sorts the names
case-insensitively for stable display order. -/
def sortNoCase (l : List String) : List String := List.insertionSort caseLe l

/-- Models `guistate.QuantNames()`: collect the keys of the `Quants` map
and sort them case-insensitively. A pure read: the registry is not
modified. -/
def guistate.QuantNames (g : guistate) : List String := sortNoCase g.quants

end engine

namespace httpfs

/-! ### httpfs client (`httpfs` package) -/

/-- The parts of an HTTP response that `Client` observes: the status code,
the `X_ERROR` header value, and the body. -/
structure Response where
  statusCode : Nat
  xerror : String
  body : String
deriving DecidableEq

/-- Value of `http.StatusOK`. -/
def statusOK : Nat := 200

/-- Value of `http.StatusTeapot`. -/
def statusTeapot : Nat := 418

/-- Models `Client.do`: the underlying round trip either yields a response
or fails with a transport error message. On failure a fake response is
fabricated with status Teapot, the error text in the `X_ERROR` header and
an empty body, so the caller always receives a response. -/
def doRequest (netResult : Except String Response) : Response :=
  match netResult with
  | .ok r => r
  | .error e => ⟨statusTeapot, e, ""⟩

/-- Binary digit or underscore, as accepted while scanning a `0b` literal. -/
def isBinTok (c : Char) : Bool := c == '0' || c == '1' || c == '_'

/-- Octal digit (ASCII 48-55) or underscore. -/
def isOctTok (c : Char) : Bool := (48 ≤ c.toNat && c.toNat ≤ 55) || c == '_'

/-- Decimal digit or underscore. -/
def isDecTok (c : Char) : Bool := c.isDigit || c == '_'

/-- Hexadecimal digit (either case) or underscore. -/
def isHexTok (c : Char) : Bool :=
  c.isDigit || (97 ≤ c.toNat && c.toNat ≤ 102)
    || (65 ≤ c.toNat && c.toNat ≤ 70) || c == '_'

/-- Models the scanning stage of `fmt.Fscan` for an int operand (`scanInt`
with the `v` verb): skip whitespace, accept an optional sign, detect a base
prefix (`0`, `0b`, `0o`, `0x`), then greedily accept the maximal run of
digits and underscores of that base, leaving the rest of the input unread.
Returns the token handed to `strconv.ParseInt`, or none on a scan error
(end of input, or no digit where one is required). -/
def scanIntToken (cs : List Char) : Option (List Char) :=
  match cs.dropWhile Char.isWhitespace with
  | [] => none
  | c :: rest =>
    let sgn : List Char := if c == '+' || c == '-' then [c] else []
    let body : List Char := if c == '+' || c == '-' then rest else c :: rest
    match body with
    | '0' :: r1 =>
      match r1 with
      | c2 :: r2 =>
        if c2 == 'b' || c2 == 'B' then
          some (sgn ++ '0' :: c2 :: r2.takeWhile isBinTok)
        else if c2 == 'o' || c2 == 'O' then
          some (sgn ++ '0' :: c2 :: r2.takeWhile isOctTok)
        else if c2 == 'x' || c2 == 'X' then
          some (sgn ++ '0' :: c2 :: r2.takeWhile isHexTok)
        else some (sgn ++ '0' :: r1.takeWhile isOctTok)
      | [] => some (sgn ++ ['0'])
    | _ =>
      let ds := body.takeWhile isDecTok
      if ds.isEmpty then none else some (sgn ++ ds)

/-- Models the digit interpretation of strconv's parse loop: `0`-`9`, then
letters (either case) counting from 10. -/
def digitVal (c : Char) : Option Nat :=
  if c.isDigit then some (c.toNat - 48)
  else if 97 ≤ c.toNat && c.toNat ≤ 122 then some (c.toNat - 97 + 10)
  else if 65 ≤ c.toNat && c.toNat ≤ 90 then some (c.toNat - 65 + 10)
  else none

/-- Models the base-prefix handling of `strconv.ParseUint` with base
argument 0: `0b`/`0o`/`0x` when at least one character follows the prefix,
else a leading `0` selects octal, else decimal. -/
def detectBase : List Char → Nat × List Char
  | '0' :: c2 :: c3 :: rest =>
    if c2 == 'b' || c2 == 'B' then (2, c3 :: rest)
    else if c2 == 'o' || c2 == 'O' then (8, c3 :: rest)
    else if c2 == 'x' || c2 == 'X' then (16, c3 :: rest)
    else (8, c2 :: c3 :: rest)
  | '0' :: rest => (8, rest)
  | s => (10, s)

/-- Models strconv's digit-accumulation loop: underscores are skipped (the
placement check happens separately), any other character must be a digit
below the base. The value is unbounded; the caller range-checks it. -/
def digitsVal (base : Nat) : Nat → List Char → Option Nat
  | n, [] => some n
  | n, c :: cs =>
    if c == '_' then digitsVal base n cs
    else
      match digitVal c with
      | none => none
      | some d => if base ≤ d then none else digitsVal base (n * base + d) cs

/-- Character classes tracked by strconv's underscore-placement check. -/
inductive Saw
  | start
  | dig
  | und
  | other

/-- Loop of strconv's underscore-placement check: an underscore must
directly follow and be followed by a digit (hex digits only after `0x`),
and the string must not end on an underscore. -/
def underscoreLoop (hex : Bool) : Saw → List Char → Bool
  | saw, [] =>
    match saw with
    | Saw.und => false
    | _ => true
  | saw, c :: cs =>
    if c.isDigit || (hex && ((97 ≤ c.toNat && c.toNat ≤ 102)
        || (65 ≤ c.toNat && c.toNat ≤ 70))) then
      underscoreLoop hex Saw.dig cs
    else if c == '_' then
      match saw with
      | Saw.dig => underscoreLoop hex Saw.und cs
      | _ => false
    else
      match saw with
      | Saw.und => false
      | _ => underscoreLoop hex Saw.other cs

/-- Models strconv's `underscoreOK`: strip an optional sign, treat a
`0b`/`0o`/`0x` prefix as a digit, then run the placement loop. -/
def underscoreOK (s : List Char) : Bool :=
  let s1 := match s with
    | c :: rest => if c == '-' || c == '+' then rest else s
    | [] => s
  match s1 with
  | '0' :: c2 :: rest =>
    if c2 == 'b' || c2 == 'B' || c2 == 'o' || c2 == 'O' then
      underscoreLoop false Saw.dig rest
    else if c2 == 'x' || c2 == 'X' then
      underscoreLoop true Saw.dig rest
    else underscoreLoop false Saw.start s1
  | _ => underscoreLoop false Saw.start s1

/-- Models `strconv.ParseUint` with base 0, as reached from
`strconv.ParseInt`: detect the base, run the digit loop, then reject
misplaced underscores. The value is an unbounded natural; the caller does
the signed range check (a Go range error also fails the enclosing scan). -/
def parseUintBase0 (s : List Char) : Option Nat :=
  match s with
  | [] => none
  | _ =>
    let bd := detectBase s
    match digitsVal bd.1 0 bd.2 with
    | none => none
    | some n =>
      if s.contains '_' && !(underscoreOK s) then none else some n

/-- Models `strconv.ParseInt` with base 0 and 64-bit size: strip an
optional sign, parse the unsigned part, and fail on syntax errors and on
values outside the signed 64-bit range (Go reports a range error there;
either error makes the enclosing scan fail). -/
def parseIntBase0 (s : List Char) : Option Int :=
  match s with
  | [] => none
  | c :: rest =>
    let neg := c == '-'
    let body := if c == '-' || c == '+' then rest else s
    match parseUintBase0 body with
    | none => none
    | some un =>
      if neg then
        if 2 ^ 63 < un then none else some (-(un : Int))
      else
        if 2 ^ 63 ≤ un then none else some (un : Int)

/-- Models `readUInt`: `v := -1; fmt.Fscan(r, &v)` — scan an integer token
from the body (maximal integer prefix after optional sign and base prefix)
and parse it as a 64-bit int; on any scan or parse failure the initial
`-1` is kept. -/
def readUInt (s : String) : Int :=
  match scanIntToken s.data with
  | none => -1
  | some tok =>
    match parseIntBase0 tok with
    | none => -1
    | some v => v

/-- Models the `*File` value built by `OpenFile`. -/
structure File where
  name : String
  fd : Nat
deriving DecidableEq

/-- Models `Client.OpenFile`: issue the OPEN request through `doRequest`;
on a status other than 200 return an error; otherwise read the descriptor
from the body and return an error when it is negative, else the `File`. -/
def OpenFile (netResult : Except String Response) (name : String) :
    Except String File :=
  let resp := doRequest netResult
  if resp.statusCode ≠ statusOK then
    .error ("httpfs open \"" ++ name ++ "\": status "
      ++ natToDec resp.statusCode ++ ": \"" ++ resp.xerror ++ "\"")
  else
    let fd := readUInt resp.body
    if fd < 0 then .error ("httpfs open \"" ++ name ++ "\": invalid argument")
    else .ok ⟨name, fd.toNat⟩

end httpfs

namespace engine

/-! ### Concrete states used by witnesses -/

/-- Concrete solver values for witnesses. -/
def simEx : Sim :=
  ⟨3, "1.2e-9", "1e-12", "2e-5", "1e-4", "1e-15", "1e-10", "0", 1024⟩

/-- Concrete idle gui state for witnesses. -/
def gIdleEx : guistate :=
  ⟨false, false, 4,
    [("renderQuant", "m"), ("renderComp", "x"), ("cli", "run(1e-9)")],
    ["m", "B_ext"]⟩

/-- Concrete busy gui state for witnesses. -/
def gBusyEx : guistate :=
  ⟨true, true, 4,
    [("renderQuant", "m"), ("renderComp", "x"), ("cli", "run(1e-9)")],
    ["m", "B_ext"]⟩

/-- Concrete compiler collaborator for witnesses: accepts exactly one
program text. -/
def compileEx : String → Except String (Tree Nat) :=
  fun code =>
    if code = "m = (1, 0, 0)" then
      .ok ⟨"m = vector(1, 0, 0)", fun n => n + 1⟩
    else
      .error "syntax error"

end engine

/-! ## Helper lemmas -/

theorem ofDigitsLE_decDigitsLE (n : Nat) : ofDigitsLE (decDigitsLE n) = n := by
  induction n using decDigitsLE.induct with
  | case1 n h => rw [decDigitsLE]; simp [h, ofDigitsLE]
  | case2 n h ih =>
    rw [decDigitsLE]
    simp [h, ofDigitsLE, ih]
    omega

theorem decDigitsLE_inj {m n : Nat} (h : decDigitsLE m = decDigitsLE n) : m = n := by
  have hm := ofDigitsLE_decDigitsLE m
  rw [h, ofDigitsLE_decDigitsLE n] at hm
  exact hm.symm

theorem decDigitsLE_lt_ten (n : Nat) : ∀ d ∈ decDigitsLE n, d < 10 := by
  induction n using decDigitsLE.induct with
  | case1 n h => rw [decDigitsLE]; simp [h]
  | case2 n h ih =>
    rw [decDigitsLE]
    simp only [h, dite_false]
    intro d hd
    rcases List.mem_cons.mp hd with h1 | h2
    · omega
    · exact ih d h2

theorem digitChar_inj_lt : ∀ d < 10, ∀ e < 10, digitChar d = digitChar e → d = e := by
  decide

theorem map_digitChar_inj :
    ∀ l1 l2 : List Nat, (∀ d ∈ l1, d < 10) → (∀ d ∈ l2, d < 10) →
      l1.map digitChar = l2.map digitChar → l1 = l2 := by
  intro l1
  induction l1 with
  | nil => intro l2 _ _ h; cases l2 <;> simp_all
  | cons a l ih =>
    intro l2 h1 h2 h
    cases l2 with
    | nil => simp at h
    | cons b l2t =>
      simp only [List.map_cons, List.cons.injEq] at h
      have ha : a < 10 := h1 a (by simp)
      have hb : b < 10 := h2 b (by simp)
      have hab : a = b := digitChar_inj_lt a ha b hb h.1
      have ht : l = l2t :=
        ih l2t (fun d hd => h1 d (by simp [hd])) (fun d hd => h2 d (by simp [hd])) h.2
      rw [hab, ht]

theorem natToDecChars_inj {m n : Nat} (h : natToDecChars m = natToDecChars n) :
    m = n := by
  unfold natToDecChars at h
  have h1 : (decDigitsLE m).map digitChar = (decDigitsLE n).map digitChar :=
    List.reverse_inj.mp h
  exact decDigitsLE_inj
    (map_digitChar_inj _ _ (decDigitsLE_lt_ten m) (decDigitsLE_lt_ten n) h1)

theorem natToDec_inj {m n : Nat} (h : natToDec m = natToDec n) : m = n := by
  apply natToDecChars_inj
  have := congrArg String.data h
  simpa [natToDec] using this

namespace engine

theorem snapshotRun_cliDisabled (sim : Sim) (g : guistate) :
    (snapshotRun sim g).cliDisabled = g.cliDisabled := by
  simp [snapshotRun, guistate.set]

theorem snapshotRun_busy (sim : Sim) (g : guistate) :
    (snapshotRun sim g).busy = g.busy := by
  simp [snapshotRun, guistate.set]

theorem touchAll_eq (k : Instant) (ts : List Instant) : touchAll k ts = ts := by
  induction ts generalizing k with
  | nil => rfl
  | cons t ts ih => simp [touchAll, KeepAlive, updateKeepAlive, ih]

end engine

namespace engine

theorem display_snapshotRun (sim : Sim) (g : guistate) :
    (snapshotRun sim g).stringValue "display" =
      "/render/" ++ g.stringValue "renderQuant" ++ "/"
        ++ g.stringValue "renderComp"
        ++ ("?" ++ natToDec sim.nsteps ++ "_"
            ++ natToDec g.eventCacheBreaker) := by
  simp [snapshotRun, guistate.set, guistate.stringValue, getVal]

theorem onAnyEvent_stringValue (g : guistate) (k : String) :
    (onAnyEvent g).stringValue k = g.stringValue k := rfl

end engine

/-! ## Claim theorems -/

namespace engine

/-- C1: whenever the refresh (OnUpdate) routine runs while BusyState is
Busy it issues no SubmitAndWait and reports the busy indicator; whenever it
runs while not Busy it re-enables controls and issues exactly one injected
command, which publishes the whole snapshot. -/
theorem onUpdate_busy_gate (now : Instant) (sim : Sim) (g : guistate)
    (ka : Instant) :
    (g.Busy = true →
      (onUpdate now sim g ka).injected = 0 ∧
      (onUpdate now sim g ka).busyLogged = true) ∧
    (g.Busy = false →
      (onUpdate now sim g ka).injected = 1 ∧
      (onUpdate now sim g ka).busyLogged = false ∧
      (onUpdate now sim g ka).gui.cliDisabled = false ∧
      (onUpdate now sim g ka).gui =
        snapshotRun sim (disableControls false g)) := by
  constructor
  · intro h
    simp [onUpdate, h]
  · intro h
    refine ⟨?_, ?_, ?_, ?_⟩ <;>
      simp [onUpdate, h, snapshotRun_cliDisabled, disableControls]

/-- Witness for the busy gate: one concrete busy poll and one concrete idle
poll. -/
theorem onUpdate_busy_gate_witness :
    ((onUpdate 5 simEx gBusyEx 0).injected = 0 ∧
      (onUpdate 5 simEx gBusyEx 0).busyLogged = true) ∧
    ((onUpdate 5 simEx gIdleEx 0).injected = 1 ∧
      (onUpdate 5 simEx gIdleEx 0).busyLogged = false) := by
  have hb := (onUpdate_busy_gate 5 simEx gBusyEx 0).1 rfl
  have hi := (onUpdate_busy_gate 5 simEx gIdleEx 0).2 rfl
  exact ⟨⟨hb.1, hb.2⟩, ⟨hi.1, hi.2.1⟩⟩

/-- C9: the refresh (OnUpdate) routine refreshes the heartbeat
unconditionally, before checking the busy flag: after any poll, busy or
not, the stored heartbeat instant equals the clock reading of the poll. -/
theorem onUpdate_keepalive_unconditional (now : Instant) (sim : Sim)
    (g : guistate) (ka : Instant) :
    (onUpdate now sim g ka).keepalive = updateKeepAlive now ka := by
  unfold onUpdate
  split <;> rfl

/-- C5: after SetBusy(b) the busy flag equals b, the cli control is
disabled exactly when b is true, and the heartbeat is refreshed to the
current clock reading. -/
theorem SetBusy_busy_controls_heartbeat (b : Bool) (now ka : Instant)
    (g : guistate) (h : ka ≤ now) :
    (SetBusy b now g ka).1.busy = b ∧
    (SetBusy b now g ka).1.cliDisabled = b ∧
    (SetBusy b now g ka).2 = now ∧
    ka ≤ (SetBusy b now g ka).2 := by
  exact ⟨rfl, rfl, rfl, h⟩

/-- Witness for SetBusy at a concrete transition in each direction. -/
theorem SetBusy_busy_controls_heartbeat_witness :
    ((SetBusy true 7 gIdleEx 3).1.busy = true ∧
      (SetBusy true 7 gIdleEx 3).1.cliDisabled = true ∧
      (SetBusy true 7 gIdleEx 3).2 = 7) ∧
    ((SetBusy false 9 gBusyEx 7).1.busy = false ∧
      (SetBusy false 9 gBusyEx 7).1.cliDisabled = false ∧
      (SetBusy false 9 gBusyEx 7).2 = 9) := by
  have h1 := SetBusy_busy_controls_heartbeat true 7 3 gIdleEx (by decide)
  have h2 := SetBusy_busy_controls_heartbeat false 9 7 gBusyEx (by decide)
  exact ⟨⟨h1.1, h1.2.1, h1.2.2.1⟩, ⟨h2.1, h2.2.1, h2.2.2.1⟩⟩

/-- C6: a Touch (updateKeepAlive) followed immediately by LastSeen
(KeepAlive) returns an instant at least the value stored before the touch,
and across repeated touches with a monotone clock the observed heartbeat
sequence is monotonically non-decreasing. -/
theorem keepalive_touch_monotone (k : Instant) (ts : List Instant)
    (h : List.Chain' (· ≤ ·) (k :: ts)) :
    (∀ now, k ≤ now → k ≤ KeepAlive (updateKeepAlive now k)) ∧
    List.Chain' (· ≤ ·) (k :: touchAll k ts) := by
  constructor
  · intro now hn
    exact hn
  · rw [touchAll_eq]
    exact h

/-- Witness for the heartbeat monotonicity at a concrete clock history. -/
theorem keepalive_touch_monotone_witness :
    (2 ≤ KeepAlive (updateKeepAlive 6 2)) ∧
    List.Chain' (· ≤ ·) (2 :: touchAll 2 [3, 5, 5, 9]) := by
  have h := keepalive_touch_monotone 2 [3, 5, 5, 9]
    (by simp [List.chain'_cons])
  exact ⟨h.1 6 (by decide), h.2⟩

end engine

namespace engine

/-- C2: Eval first delegates to the compiler; on success it logs the
compiled unit's formatted form via LogInput and evaluates the unit exactly
once, and on failure it logs, via LogOutput, the original text concatenated
with the error description and evaluates nothing. -/
theorem Eval_compile_gate {σ : Type} (compile : String → Except String (Tree σ))
    (code : String) (sim : σ) :
    (∀ t, compile code = .ok t →
      Eval compile code sim = ⟨[.input t.format], t.eval sim, 1⟩) ∧
    (∀ e, compile code = .error e →
      Eval compile code sim = ⟨[.output (code ++ "\n" ++ e)], sim, 0⟩) := by
  constructor
  · intro t h
    simp [Eval, h]
  · intro e h
    simp [Eval, h]

/-- Witness for Eval: one compiling and one non-compiling program text. -/
theorem Eval_compile_gate_witness :
    Eval compileEx "m = (1, 0, 0)" 0 =
      ⟨[.input "m = vector(1, 0, 0)"], 1, 1⟩ ∧
    Eval compileEx "m = (1, 0" 0 =
      ⟨[.output ("m = (1, 0" ++ "\n" ++ "syntax error")], 0, 0⟩ := by
  constructor
  · exact (Eval_compile_gate compileEx "m = (1, 0, 0)" 0).1
      ⟨"m = vector(1, 0, 0)", fun n => n + 1⟩ (by simp [compileEx])
  · exact (Eval_compile_gate compileEx "m = (1, 0" 0).2
      "syntax error" (by simp [compileEx])

/-- C3: every command run by the bridge goes through the guarded wrapper,
so the consumer loop executes all queued commands even when some fault, and
a SubmitAndWait waiter is always released, fault or not. -/
theorem bridge_contains_faults {σ : Type} (cmds : List (Cmd σ)) (s s2 : σ)
    (cmd : Cmd σ) :
    (drain cmds s).2.1 = cmds.length ∧
    (SubmitAndWait cmd s2).released = true := by
  constructor
  · induction cmds generalizing s with
    | nil => rfl
    | cons c cs ih => simp [drain, ih]
  · rfl

/-- C7: a fire-and-forget Submit (the send on the Inject channel) only
enqueues the command: the simulation state is untouched at submission time
and no outcome of the command reaches the caller; the cli handler enqueues
exactly the Eval command for the entered text and clears the text box. -/
theorem Submit_fire_and_forget {σ : Type} (cmd : Cmd σ) (b : Bridge σ)
    (evalCmd : String → Cmd σ) (g : guistate) :
    (Submit cmd b).sim = b.sim ∧
    (Submit cmd b).pending = b.pending ++ [cmd] ∧
    (cliHandler evalCmd g b).2.sim = b.sim ∧
    (cliHandler evalCmd g b).2.pending =
      b.pending ++ [evalCmd (g.stringValue "cli")] ∧
    (cliHandler evalCmd g b).1 = g.set "cli" "" := by
  exact ⟨rfl, rfl, rfl, rfl, rfl⟩

/-- C8: QuantNames returns exactly the registered quantity names, each
exactly once when the registry has no duplicates, in case-insensitive
sorted order; the registry itself is left unchanged (QuantNames is a pure
read). -/
theorem QuantNames_sorted_set (g : guistate) :
    (g.QuantNames).Perm g.quants ∧
    List.Sorted caseLe g.QuantNames ∧
    (g.quants.Nodup → (g.QuantNames).Nodup) := by
  refine ⟨List.perm_insertionSort _ _, List.sorted_insertionSort _ _, ?_⟩
  intro h
  exact ((List.perm_insertionSort caseLe g.quants).nodup_iff).mpr h

/-- Witness for QuantNames at a concrete registry. -/
theorem QuantNames_sorted_set_witness :
    (gIdleEx.QuantNames).Perm gIdleEx.quants ∧
    List.Sorted caseLe gIdleEx.QuantNames ∧
    (gIdleEx.QuantNames).Nodup := by
  have h := QuantNames_sorted_set gIdleEx
  exact ⟨h.1, h.2.1, h.2.2 (by simp [gIdleEx])⟩

end engine

namespace engine

theorem display_changes (sim : Sim) (g : guistate) :
    (snapshotRun sim (onAnyEvent g)).stringValue "display" ≠
      (snapshotRun sim g).stringValue "display" := by
  rw [display_snapshotRun, display_snapshotRun, onAnyEvent_stringValue,
    onAnyEvent_stringValue]
  intro h
  have hd := congrArg String.data h
  simp only [String.data_append, List.append_assoc] at hd
  have h1 := List.append_cancel_left hd
  have h2 := List.append_cancel_left h1
  have h3 := List.append_cancel_left h2
  have h4 := List.append_cancel_left h3
  have h5 := List.append_cancel_left h4
  have h6 := List.append_cancel_left h5
  have h7 := List.append_cancel_left h6
  have h8 : natToDecChars (onAnyEvent g).eventCacheBreaker =
      natToDecChars g.eventCacheBreaker := h7
  have := natToDecChars_inj h8
  simp [onAnyEvent] at this

/-- C4: the eventCacheBreaker counter is non-negative and never reset:
after n mutating events it equals the starting value plus n (hence it is
monotonically non-decreasing), every mutating event increments it so that
it is strictly greater than before, and the generated display resource
identifier after a mutation differs from the one before it for otherwise
identical query/display parameters. -/
theorem cacheBreaker_monotone_display (g : guistate) (sim : Sim) (n : Nat) :
    0 ≤ g.eventCacheBreaker ∧
    (onAnyEvent g).eventCacheBreaker = g.eventCacheBreaker + 1 ∧
    g.eventCacheBreaker < (onAnyEvent g).eventCacheBreaker ∧
    (onAnyEvent^[n] g).eventCacheBreaker = g.eventCacheBreaker + n ∧
    (snapshotRun sim (onAnyEvent g)).stringValue "display" ≠
      (snapshotRun sim g).stringValue "display" := by
  refine ⟨Nat.zero_le _, rfl, Nat.lt_succ_self _, ?_, display_changes sim g⟩
  induction n with
  | zero => rfl
  | succ m ih =>
    rw [Function.iterate_succ_apply']
    simp [onAnyEvent, ih]
    omega

/-- Witness for the cache breaker at a concrete state. -/
theorem cacheBreaker_monotone_display_witness :
    (onAnyEvent gIdleEx).eventCacheBreaker = 5 ∧
    (snapshotRun simEx (onAnyEvent gIdleEx)).stringValue "display" ≠
      (snapshotRun simEx gIdleEx).stringValue "display" := by
  have h := cacheBreaker_monotone_display gIdleEx simEx 1
  exact ⟨h.2.1, h.2.2.2.2⟩

end engine

namespace httpfs

theorem readUInt_fscan_cases :
    readUInt "4" = 4 ∧ readUInt "12x" = 12 ∧ readUInt "0x10" = 16 ∧
    readUInt "017" = 15 ∧ readUInt "0" = 0 ∧ readUInt "-5" = -5 ∧
    readUInt "0b101" = 5 ∧ readUInt "019" = 1 ∧ readUInt "  7 " = 7 ∧
    readUInt "1_2" = 12 ∧ readUInt "12_" = -1 ∧ readUInt "_12" = -1 ∧
    readUInt "0x" = -1 ∧ readUInt "" = -1 ∧ readUInt "abc" = -1 ∧
    readUInt "99999999999999999999" = -1 := by decide

/-- C10: doRequest always yields a response — on transport failure a
fabricated one with status 418 (Teapot), the transport error text in the
X_ERROR header and an empty body — and OpenFile returns an error exactly
when the response status is not 200 OK or the body does not scan as a
non-negative descriptor; it never returns neither a file nor an error. -/
theorem doRequest_openFile_error_contract (net : Except String Response)
    (name : String) :
    (∀ e, net = .error e → doRequest net = ⟨statusTeapot, e, ""⟩) ∧
    ((∃ err, OpenFile net name = .error err) ↔
      ((doRequest net).statusCode ≠ statusOK ∨
        readUInt (doRequest net).body < 0)) ∧
    ((∃ err, OpenFile net name = .error err) ∨
      (∃ f, OpenFile net name = .ok f)) := by
  refine ⟨?_, ?_, ?_⟩
  · intro e h
    rw [h]
    rfl
  · by_cases h1 : (doRequest net).statusCode = statusOK
    · by_cases h2 : readUInt (doRequest net).body < 0
      · simp [OpenFile, h1, h2]
      · simp [OpenFile, h1, h2]
    · simp [OpenFile, h1]
  · cases h : OpenFile net name with
    | error e => exact .inl ⟨e, rfl⟩
    | ok f => exact .inr ⟨f, rfl⟩

/-- Witness for the error contract: one transport failure and successful
opens on an all-digit body and on a body where the scan consumes only the
maximal integer prefix. -/
theorem doRequest_openFile_error_contract_witness :
    doRequest (.error "connection refused") =
      ⟨statusTeapot, "connection refused", ""⟩ ∧
    (∃ err, OpenFile (.error "connection refused") "table.txt" = .error err) ∧
    (∃ f, OpenFile (.ok ⟨200, "", "4"⟩) "table.txt" = .ok f) ∧
    (∃ f, OpenFile (.ok ⟨200, "", "12x"⟩) "table.txt" = .ok f) := by
  have h1 := doRequest_openFile_error_contract (.error "connection refused")
    "table.txt"
  have h2 := doRequest_openFile_error_contract (.ok ⟨200, "", "4"⟩)
    "table.txt"
  have h3 := doRequest_openFile_error_contract (.ok ⟨200, "", "12x"⟩)
    "table.txt"
  refine ⟨h1.1 "connection refused" rfl, h1.2.1.mpr (by decide), ?_, ?_⟩
  · have hno : ¬ ((doRequest (.ok ⟨200, "", "4"⟩)).statusCode ≠ statusOK ∨
        readUInt (doRequest (.ok ⟨200, "", "4"⟩)).body < 0) := by decide
    rcases h2.2.2 with he | hf
    · exact absurd (h2.2.1.mp he) hno
    · exact hf
  · have hno : ¬ ((doRequest (.ok ⟨200, "", "12x"⟩)).statusCode ≠ statusOK ∨
        readUInt (doRequest (.ok ⟨200, "", "12x"⟩)).body < 0) := by decide
    rcases h3.2.2 with he | hf
    · exact absurd (h3.2.1.mp he) hno
    · exact hf

end httpfs
